import Mathlib

/-!
Verification development for the MarkJSCanvasUI canvas widget library
(`markjscanvasui.js`).  The JavaScript classes are shallowly embedded as Lean
structures; numeric values are rationals (the library performs only exact
arithmetic on the inputs considered here), caller-supplied callbacks are
identified by numeric ids, and the host environment's one-shot timer facility
(`setTimeout`) is modelled as an explicit list of pending timers fired by
wall-clock elapse events.
-/

namespace MarkUI

/-- JavaScript remainder `a % b` (truncated division, sign of the dividend).
The library only applies it with a guarded non-zero divisor. -/
def jsMod (a b : Int) : Int := if b = 0 then 0 else a - b * (Int.tdiv a b)

/-- JavaScript `Math.round`: round half toward positive infinity. -/
def jsRound (q : ℚ) : Int := Int.floor (q + 1/2)

/-- JavaScript `String.prototype.toLowerCase`, restricted to the ASCII labels
the library compares (character-wise lowercasing). -/
def lowerStr (s : String) : String := String.mk (s.data.map Char.toLower)

/-- An axis-aligned rectangle as produced by `Menu.getItemBounds`. -/
structure Rect where
  x : ℚ
  y : ℚ
  width : ℚ
  height : ℚ
  deriving DecidableEq

/-- The containment test `x >= b.x && x <= b.x + b.width && y >= b.y && y <=
b.y + b.height` used by the menu item click/hover loops. -/
def Rect.containsXY (r : Rect) (px py : ℚ) : Bool :=
  px ≥ r.x && px ≤ r.x + r.width && py ≥ r.y && py ≤ r.y + r.height

/-- One `{label, callback}` entry of a `Menu`; the caller-supplied callback is
identified by a numeric id, `none` when the item has no callback. -/
structure MenuItem where
  label : String
  callback : Option Nat
  deriving DecidableEq

/-- Menu orientation: `options.orientation`, default `'vertical'`. -/
inductive Orientation
  | vertical
  | horizontal
  deriving DecidableEq

/-- State of the `Menu` control: geometry (`x`, `y`, per-item `itemWidth` ×
`itemHeight`, `gap`), the item list, `selectedIndex`, and the press-feedback
timer fields `pressed` / `pressedTime` / `pressedDuration` (default 300). -/
structure Menu where
  x : ℚ
  y : ℚ
  itemWidth : ℚ
  itemHeight : ℚ
  gap : ℚ
  items : List MenuItem
  selectedIndex : Nat
  orientation : Orientation
  pressed : Bool
  pressedTime : ℚ
  pressedDuration : ℚ
  deriving DecidableEq

/-- `Menu.getItemBounds(index)`: per-item bounds by closed-form offset. -/
def Menu.getItemBounds (m : Menu) (index : Nat) : Rect :=
  match m.orientation with
  | .horizontal => ⟨m.x + index * (m.itemWidth + m.gap), m.y, m.itemWidth, m.itemHeight⟩
  | .vertical => ⟨m.x, m.y + index * (m.itemHeight + m.gap), m.itemWidth, m.itemHeight⟩

/-- The first (lowest-index) menu item whose bounds contain the point, as
scanned by the loop in `Menu.handleClick` (which breaks at the first hit). -/
def Menu.hitItem (m : Menu) (px py : ℚ) : Option Nat :=
  (List.range m.items.length).find? fun i => (m.getItemBounds i).containsXY px py

/-- `Menu.update(deltaTime)`: while `pressed`, accumulate `pressedTime`; when
it reaches `pressedDuration`, clear `pressed` and reset `pressedTime`. -/
def Menu.update (m : Menu) (dt : ℚ) : Menu :=
  if m.pressed then
    if m.pressedTime + dt ≥ m.pressedDuration then
      { m with pressed := false, pressedTime := 0 }
    else
      { m with pressedTime := m.pressedTime + dt }
  else m

/-- What a pending `setTimeout` closure from `Menu` does when it fires:
`handleClick` captures the hit index `i` (`this.items[i].callback()`), while
`handleKeyDown` (Enter/Space) and `activate` read `this.selectedIndex` at fire
time (`this.items[this.selectedIndex].callback()`). -/
inductive TimerAction
  | fixedItem (i : Nat)
  | selectedItem
  deriving DecidableEq

/-- A pending host timer: absolute wall-clock deadline plus the closure. -/
structure Timer where
  deadline : ℚ
  action : TimerAction
  deriving DecidableEq

/-- A menu together with its host environment: wall clock `now`, pending
`setTimeout` entries, and the callback ids invoked so far (in order). -/
structure MenuWorld where
  menu : Menu
  now : ℚ
  timers : List Timer
  fired : List Nat
  deriving DecidableEq

/-- Events of the menu/host trace: mouse click, Enter-or-Space key, gamepad
activate, a forward arrow key (the `Menu.handleKeyDown` branch stepping
`selectedIndex` to the next item modulo the item count), a `update(dt)` call,
and a wall-clock elapse (which fires due host timers). -/
inductive MEvent
  | click (px py : ℚ)
  | keyEnter
  | gpActivate
  | keyArrowNext
  | update (dt : ℚ)
  | elapse (dt : ℚ)
  deriving DecidableEq

/-- Resolve a firing timer closure against the menu state at fire time. -/
def resolveTimer (m : Menu) : TimerAction → Option Nat
  | .fixedItem i => (m.items.get? i).bind MenuItem.callback
  | .selectedItem => (m.items.get? m.selectedIndex).bind MenuItem.callback

/-- The activation body shared by `Menu.handleKeyDown` (Enter/Space) and
`Menu.activate`: set `pressed`, reset `pressedTime`, and if the selected item
has a callback schedule it via `setTimeout(..., pressedDuration)`. -/
def MenuWorld.activateStep (w : MenuWorld) : MenuWorld :=
  let menu := { w.menu with pressed := true, pressedTime := 0 }
  let timers :=
    match (w.menu.items.get? w.menu.selectedIndex).bind MenuItem.callback with
    | some _ => w.timers ++ [⟨w.now + w.menu.pressedDuration, .selectedItem⟩]
    | none => w.timers
  { w with menu := menu, timers := timers }

/-- One step of the menu/host trace.  `click` follows `Menu.handleClick`;
`update` is the manager forwarding `update(deltaTime)`; `elapse` advances the
wall clock and fires every pending timer whose deadline has passed. -/
def MenuWorld.step (w : MenuWorld) : MEvent → MenuWorld
  | .click px py =>
    match w.menu.hitItem px py with
    | some i =>
      let menu := { w.menu with selectedIndex := i, pressed := true, pressedTime := 0 }
      let timers :=
        match (w.menu.items.get? i).bind MenuItem.callback with
        | some _ => w.timers ++ [⟨w.now + w.menu.pressedDuration, .fixedItem i⟩]
        | none => w.timers
      { w with menu := menu, timers := timers }
    | none => w
  | .keyEnter => w.activateStep
  | .gpActivate => w.activateStep
  | .keyArrowNext =>
    { w with menu := { w.menu with
        selectedIndex := (w.menu.selectedIndex + 1) % w.menu.items.length } }
  | .update dt => { w with menu := w.menu.update dt }
  | .elapse dt =>
    let now := w.now + dt
    let due := w.timers.filter fun t => t.deadline ≤ now
    let rest := w.timers.filter fun t => now < t.deadline
    { w with now := now, timers := rest,
             fired := w.fired ++ due.filterMap fun t => resolveTimer w.menu t.action }

/-- Run a trace of events from a starting world. -/
def MenuWorld.run (w : MenuWorld) (es : List MEvent) : MenuWorld :=
  es.foldl MenuWorld.step w

theorem MenuWorld.run_nil (w : MenuWorld) : w.run [] = w := rfl

theorem MenuWorld.run_cons (w : MenuWorld) (e : MEvent) (es : List MEvent) :
    w.run (e :: es) = (w.step e).run es := rfl

/-- A one-item vertical menu at the origin with item size 200 × 50, no gap,
whose single item carries caller callback id 0. -/
def menuC1 : Menu :=
  ⟨0, 0, 200, 50, 0, [⟨"Start", some 0⟩], 0, .vertical, false, 0, 300⟩

/-- The menu above in a fresh host environment at wall-clock time 0. -/
def worldC1 : MenuWorld := ⟨menuC1, 0, [], []⟩

/-- C1 counterexample: clicking the item activates it (`pressed` becomes
true), but then calling `update` with cumulative deltaTime 300 =
`pressedDuration` invokes no callback at all — the callback is driven by the
host `setTimeout`, which fires after 300 wall-clock milliseconds even with no
`update` call.  This refutes both directions of the claim: cumulative update
time reaching `pressedDuration` does not invoke the callback, and the callback
can be invoked while cumulative update time is still 0. -/
theorem C1_counterexample :
    (worldC1.run [.click 100 25]).menu.pressed = true
    ∧ (worldC1.run [.click 100 25, .update 300]).fired = []
    ∧ (worldC1.run [.click 100 25, .elapse 300]).fired = [0] := by
  refine ⟨?_, ?_, ?_⟩ <;>
    norm_num [worldC1, menuC1, MenuWorld.run, MenuWorld.step, MenuWorld.activateStep,
      Menu.hitItem, Menu.getItemBounds, Rect.containsXY, Menu.update, resolveTimer,
      List.range_succ, List.find?, List.filter, List.filterMap]

theorem Menu.update_fields (m : Menu) (dt : ℚ) :
    (m.update dt).items = m.items ∧ (m.update dt).selectedIndex = m.selectedIndex := by
  unfold Menu.update
  split
  · split <;> exact ⟨rfl, rfl⟩
  · exact ⟨rfl, rfl⟩

/-- Running a trace consisting only of `update(dt)` calls touches neither the
wall clock, the pending host timers, the fired-callback log, nor the menu's
item list and selection. -/
theorem run_updates_preserves (dts : List ℚ) (w : MenuWorld) :
    (w.run (dts.map MEvent.update)).now = w.now
    ∧ (w.run (dts.map MEvent.update)).timers = w.timers
    ∧ (w.run (dts.map MEvent.update)).fired = w.fired
    ∧ (w.run (dts.map MEvent.update)).menu.items = w.menu.items
    ∧ (w.run (dts.map MEvent.update)).menu.selectedIndex = w.menu.selectedIndex := by
  induction dts generalizing w with
  | nil => exact ⟨rfl, rfl, rfl, rfl, rfl⟩
  | cons d rest ih =>
    have hstep : w.step (MEvent.update d) = { w with menu := w.menu.update d } := rfl
    have h := ih { w with menu := w.menu.update d }
    have hf := Menu.update_fields w.menu d
    refine ⟨?_, ?_, ?_, ?_, ?_⟩ <;>
      simp only [List.map_cons, MenuWorld.run_cons, hstep] <;>
      first
        | exact h.1
        | exact h.2.1
        | exact h.2.2.1
        | exact h.2.2.2.1.trans hf.1
        | exact h.2.2.2.2.trans hf.2

/-- C1 (amended): every activation mode schedules a single host timer at
wall-clock deadline `pressedDuration`, and subsequent `update(dt)` calls — no
matter how much cumulative deltaTime they carry — never invoke any callback;
the timer fires exactly once when the wall clock has advanced by at least
`pressedDuration` since the activation, and not before.  A click captures the
hit item index, so the clicked item's callback fires; Enter/Space and gamepad
activation (two names for the same code path) instead look up
`items[selectedIndex]` when the timer fires, so the callback of the item
selected at fire time fires — the last conjunct shows that after an arrow key
moves the selection inside the press window, the newly selected item's
callback fires in place of the activated one's. -/
theorem C1_menu_deferred_callback (m : Menu) (px py : ℚ) (i c : Nat) (dts : List ℚ) (T : ℚ)
    (hhit : m.hitItem px py = some i)
    (hcb : (m.items.get? i).bind MenuItem.callback = some c) :
    ((MenuWorld.mk m 0 [] []).run (MEvent.click px py :: dts.map MEvent.update)).fired = []
    ∧ ((MenuWorld.mk m 0 [] []).run (MEvent.click px py :: dts.map MEvent.update)).timers
        = [⟨m.pressedDuration, TimerAction.fixedItem i⟩]
    ∧ (m.pressedDuration ≤ T →
        (((MenuWorld.mk m 0 [] []).run
            (MEvent.click px py :: dts.map MEvent.update)).step (MEvent.elapse T)).fired = [c])
    ∧ (T < m.pressedDuration →
        (((MenuWorld.mk m 0 [] []).run
            (MEvent.click px py :: dts.map MEvent.update)).step (MEvent.elapse T)).fired = [])
    ∧ (∀ w : MenuWorld, w.step MEvent.gpActivate = w.step MEvent.keyEnter)
    ∧ (∀ c0, (m.items.get? m.selectedIndex).bind MenuItem.callback = some c0 →
        ((MenuWorld.mk m 0 [] []).run (MEvent.keyEnter :: dts.map MEvent.update)).fired = []
        ∧ ((MenuWorld.mk m 0 [] []).run (MEvent.keyEnter :: dts.map MEvent.update)).timers
            = [⟨m.pressedDuration, TimerAction.selectedItem⟩]
        ∧ (m.pressedDuration ≤ T →
            (((MenuWorld.mk m 0 [] []).run
                (MEvent.keyEnter :: dts.map MEvent.update)).step
                (MEvent.elapse T)).fired = [c0])
        ∧ (T < m.pressedDuration →
            (((MenuWorld.mk m 0 [] []).run
                (MEvent.keyEnter :: dts.map MEvent.update)).step
                (MEvent.elapse T)).fired = [])
        ∧ (∀ c1, (m.items.get? ((m.selectedIndex + 1) % m.items.length)).bind
              MenuItem.callback = some c1 →
            m.pressedDuration ≤ T →
            ((((MenuWorld.mk m 0 [] []).step MEvent.keyEnter).step
                MEvent.keyArrowNext).step (MEvent.elapse T)).fired = [c1])) := by
  have hcb' : (m.items[i]?.bind fun a => a.callback) = some c := by simpa using hcb
  have hclick : (MenuWorld.mk m 0 [] []).step (MEvent.click px py)
      = ⟨{ m with selectedIndex := i, pressed := true, pressedTime := 0 }, 0,
         [⟨m.pressedDuration, TimerAction.fixedItem i⟩], []⟩ := by
    simp [MenuWorld.step, hhit, hcb']
  obtain ⟨hnow, htimers, hfired, hitems, hsel⟩ := run_updates_preserves dts
    ⟨{ m with selectedIndex := i, pressed := true, pressedTime := 0 }, 0,
     [⟨m.pressedDuration, TimerAction.fixedItem i⟩], []⟩
  refine ⟨?_, ?_, ?_, ?_, fun w => rfl, ?_⟩
  · rw [MenuWorld.run_cons, hclick]; exact hfired
  · rw [MenuWorld.run_cons, hclick]; exact htimers
  · intro hT
    rw [MenuWorld.run_cons, hclick]
    simp [MenuWorld.step, htimers, hnow, hitems, List.filter, List.filterMap,
      resolveTimer, hT, hcb', hfired]
  · intro hT
    rw [MenuWorld.run_cons, hclick]
    have hT2 : ¬ m.pressedDuration ≤ T := not_le.mpr hT
    simp [MenuWorld.step, htimers, hnow, List.filter, List.filterMap,
      resolveTimer, hT2, hfired]
  · intro c0 hc0
    have hc0' : (m.items[m.selectedIndex]?.bind fun a => a.callback) = some c0 := by
      simpa using hc0
    have hkey : (MenuWorld.mk m 0 [] []).step MEvent.keyEnter
        = ⟨{ m with pressed := true, pressedTime := 0 }, 0,
           [⟨m.pressedDuration, TimerAction.selectedItem⟩], []⟩ := by
      simp [MenuWorld.step, MenuWorld.activateStep, hc0']
    obtain ⟨know, ktimers, kfired, kitems, ksel⟩ := run_updates_preserves dts
      ⟨{ m with pressed := true, pressedTime := 0 }, 0,
       [⟨m.pressedDuration, TimerAction.selectedItem⟩], []⟩
    refine ⟨?_, ?_, ?_, ?_, ?_⟩
    · rw [MenuWorld.run_cons, hkey]; exact kfired
    · rw [MenuWorld.run_cons, hkey]; exact ktimers
    · intro hT
      rw [MenuWorld.run_cons, hkey]
      simp [MenuWorld.step, ktimers, know, kitems, ksel, List.filter, List.filterMap,
        resolveTimer, hT, hc0', kfired]
    · intro hT
      rw [MenuWorld.run_cons, hkey]
      have hT2 : ¬ m.pressedDuration ≤ T := not_le.mpr hT
      simp [MenuWorld.step, ktimers, know, List.filter, List.filterMap,
        resolveTimer, hT2, kfired]
    · intro c1 hc1 hT
      have hc1' : (m.items[(m.selectedIndex + 1) % m.items.length]?.bind
          fun a => a.callback) = some c1 := by simpa using hc1
      rw [hkey]
      simp [MenuWorld.step, List.filter, List.filterMap, resolveTimer, hT, hc1']

/-- A two-item vertical menu at the origin (items 200 × 50, no gap) whose
items carry caller callbacks 0 and 1; selection starts on item 0. -/
def menuC1pair : Menu :=
  ⟨0, 0, 200, 50, 0, [⟨"A", some 0⟩, ⟨"B", some 1⟩], 0, .vertical, false, 0, 300⟩

/-- Witness for `C1_menu_deferred_callback` at the concrete two-item menu:
after a click (or an Enter press) two updates of 150 ms each (cumulative 300 =
`pressedDuration`) fire nothing; a wall-clock elapse of 300 ms fires callback
0 exactly once; and pressing Enter, then moving the selection with an arrow
key before the timer fires, makes callback 1 — not the activated item's 0 —
fire. -/
theorem C1_menu_deferred_callback_witness :
    ((MenuWorld.mk menuC1pair 0 [] []).run
        (MEvent.click 100 25 :: [(150 : ℚ), 150].map MEvent.update)).fired = []
    ∧ (((MenuWorld.mk menuC1pair 0 [] []).run
        (MEvent.click 100 25 :: [(150 : ℚ), 150].map MEvent.update)).step
          (MEvent.elapse 300)).fired = [0]
    ∧ ((MenuWorld.mk menuC1pair 0 [] []).run
        (MEvent.keyEnter :: [(150 : ℚ), 150].map MEvent.update)).fired = []
    ∧ (((MenuWorld.mk menuC1pair 0 [] []).run
        (MEvent.keyEnter :: [(150 : ℚ), 150].map MEvent.update)).step
          (MEvent.elapse 300)).fired = [0]
    ∧ ((((MenuWorld.mk menuC1pair 0 [] []).step MEvent.keyEnter).step
          MEvent.keyArrowNext).step (MEvent.elapse 300)).fired = [1] := by
  have h := C1_menu_deferred_callback menuC1pair 100 25 0 0 [150, 150] 300
    (by norm_num [menuC1pair, Menu.hitItem, Menu.getItemBounds, Rect.containsXY,
      List.range_succ, List.find?])
    rfl
  have hkey := h.2.2.2.2.2 0 rfl
  exact ⟨h.1, h.2.2.1 (by norm_num [menuC1pair]), hkey.1,
    hkey.2.2.1 (by norm_num [menuC1pair]), hkey.2.2.2.2 1 rfl (by norm_num [menuC1pair])⟩

/-- State of the `Slider` control: geometry, `padding` (resolved option,
default 10), the numeric range `min`/`max`, current `value`, and `step`. -/
structure Slider where
  x : ℚ
  y : ℚ
  width : ℚ
  height : ℚ
  padding : ℚ
  min : ℚ
  max : ℚ
  value : ℚ
  step : ℚ
  deriving DecidableEq

/-- The value computed by `Slider.updateValueFromX` from a click x-position:
linear map into the range, rounded to the nearest step multiple, clamped to
`[min, max]`.  Note the computation never reads the current `value`. -/
def Slider.computedFromX (s : Slider) (px : ℚ) : ℚ :=
  let sliderX := s.x + s.padding
  let sliderWidth := s.width - s.padding * 2
  let percent := Max.max 0 (Min.min 1 ((px - sliderX) / sliderWidth))
  let newValue := s.min + percent * (s.max - s.min)
  let rounded := (jsRound (newValue / s.step) : ℚ) * s.step
  Max.max s.min (Min.min s.max rounded)

/-- `Slider.updateValueFromX(x)`: assign the computed value and fire the
callback (modelled as `some value`) only when it differs from the current
value. -/
def Slider.updateValueFromX (s : Slider) (px : ℚ) : Slider × Option ℚ :=
  if s.computedFromX px ≠ s.value then
    ({ s with value := s.computedFromX px }, some (s.computedFromX px))
  else (s, none)

/-- Keys relevant to `Slider.handleKeyDown`. -/
inductive SKey
  | arrowLeft
  | arrowRight
  | other
  deriving DecidableEq

/-- `Slider.handleKeyDown`: ArrowLeft/ArrowRight step the value by `step`
(clamped at `min`/`max`) and fire the callback unconditionally. -/
def Slider.handleKeyDown (s : Slider) (k : SKey) : Slider × Option ℚ :=
  match k with
  | .arrowLeft =>
    let v := Max.max s.min (s.value - s.step)
    ({ s with value := v }, some v)
  | .arrowRight =>
    let v := Min.min s.max (s.value + s.step)
    ({ s with value := v }, some v)
  | .other => (s, none)

/-- `Slider.handleGamepadAxis(direction)`: step like the arrow keys and fire
the callback unconditionally. -/
def Slider.handleGamepadAxis (s : Slider) (direction : Int) : Slider × Option ℚ :=
  if direction < 0 then
    let v := Max.max s.min (s.value - s.step)
    ({ s with value := v }, some v)
  else
    let v := Min.min s.max (s.value + s.step)
    ({ s with value := v }, some v)

/-- A slider already clamped at its minimum (300 × 80, padding 10, range
0..10, step 1, value 0). -/
def sliderC3 : Slider := ⟨0, 0, 300, 80, 10, 0, 10, 0, 1⟩

/-- C3 counterexample: with the slider already at `min`, an ArrowLeft key
press computes a value equal to the prior value (0) yet still fires the
callback — `Slider.handleKeyDown` invokes the callback unconditionally,
contradicting the claim that a step whose computed value equals the prior
value fires no callback. -/
theorem C3_counterexample :
    (sliderC3.handleKeyDown SKey.arrowLeft).2 = some 0
    ∧ (sliderC3.handleKeyDown SKey.arrowLeft).1.value = sliderC3.value := by
  constructor <;> norm_num [sliderC3, Slider.handleKeyDown]

/-- C3 (amended): `updateValueFromX` is idempotent and change-gated — a second
call with the same x fires nothing, a silent call leaves the state unchanged,
and a firing call reports a genuinely different value; but the arrow-key and
gamepad steps fire the callback unconditionally, even when the clamped value
equals the prior value.  The positivity hypotheses mark the region where the
exact rational model agrees with the JavaScript number semantics (no division
by zero, hence no NaN). -/
theorem C3_slider_callback_gating (s : Slider) (px : ℚ)
    (hstep : 0 < s.step) (hwidth : s.padding * 2 < s.width) :
    ((s.updateValueFromX px).1.updateValueFromX px).2 = none
    ∧ ((s.updateValueFromX px).2 = none → (s.updateValueFromX px).1 = s)
    ∧ (∀ v, (s.updateValueFromX px).2 = some v →
        v ≠ s.value ∧ (s.updateValueFromX px).1.value = v)
    ∧ (s.handleKeyDown SKey.arrowLeft).2 = some (max s.min (s.value - s.step))
    ∧ (s.handleKeyDown SKey.arrowRight).2 = some (min s.max (s.value + s.step))
    ∧ (∀ d, (s.handleGamepadAxis d).2.isSome = true) := by
  have hirrel : ∀ w : ℚ, ({ s with value := w } : Slider).computedFromX px
      = s.computedFromX px := fun w => rfl
  refine ⟨?_, ?_, ?_, rfl, rfl, ?_⟩
  · by_cases h : s.computedFromX px ≠ s.value <;>
      simp [Slider.updateValueFromX, h, hirrel]
  · intro h2
    by_cases h : s.computedFromX px ≠ s.value
    · rw [Slider.updateValueFromX, if_pos h] at h2
      simp at h2
    · rw [Slider.updateValueFromX, if_neg h]
  · intro v hv
    by_cases h : s.computedFromX px ≠ s.value
    · rw [Slider.updateValueFromX, if_pos h] at hv
      simp only [Option.some.injEq] at hv
      subst hv
      refine ⟨h, ?_⟩
      rw [Slider.updateValueFromX, if_pos h]
    · rw [Slider.updateValueFromX, if_neg h] at hv
      simp at hv
  · intro d
    rw [Slider.handleGamepadAxis]
    split <;> rfl

/-- Witness for `C3_slider_callback_gating` at the concrete slider: clicking
at x = 155 lands mid-track, and the second identical call fires nothing while
the arrow keys still fire. -/
theorem C3_slider_callback_gating_witness :
    ((sliderC3.updateValueFromX 155).1.updateValueFromX 155).2 = none
    ∧ ((sliderC3.updateValueFromX 155).2 = none → (sliderC3.updateValueFromX 155).1 = sliderC3)
    ∧ (∀ v, (sliderC3.updateValueFromX 155).2 = some v →
        v ≠ sliderC3.value ∧ (sliderC3.updateValueFromX 155).1.value = v)
    ∧ (sliderC3.handleKeyDown SKey.arrowLeft).2
        = some (max sliderC3.min (sliderC3.value - sliderC3.step))
    ∧ (sliderC3.handleKeyDown SKey.arrowRight).2
        = some (min sliderC3.max (sliderC3.value + sliderC3.step))
    ∧ (∀ d, (sliderC3.handleGamepadAxis d).2.isSome = true) :=
  C3_slider_callback_gating sliderC3 155 (by norm_num [sliderC3]) (by norm_num [sliderC3])

/-- What a modal button's callback slot holds: a caller-supplied callback
(numeric id) or the auto-generated `() => this.close()` of the default OK
button.  `none` models a button created without a callback. -/
inductive BCallback
  | user (uid : Nat)
  | autoClose
  deriving DecidableEq

/-- A `{label, callback}` modal button. -/
structure MButton where
  label : String
  callback : Option BCallback
  deriving DecidableEq

/-- The `Modal` fields the escape/gamepad paths read: an identity for the
`closeModal` indexOf test, the button list after constructor defaulting, and
the optional `options.escapeButtonLabel`. -/
structure Modal where
  mid : Nat
  buttons : List MButton
  escapeButtonLabel : Option String
  deriving DecidableEq

/-- The constructor's button defaulting: `buttons.length > 0 ? buttons :
[{ label: 'OK', callback: () => this.close() }]`. -/
def mkModalButtons (buttons : List MButton) : List MButton :=
  if buttons.length > 0 then buttons else [⟨"OK", some BCallback.autoClose⟩]

/-- `showModal` constructing a modal from caller arguments. -/
def mkModal (mid : Nat) (buttons : List MButton) (escapeButtonLabel : Option String) : Modal :=
  ⟨mid, mkModalButtons buttons, escapeButtonLabel⟩

/-- The default-label predicate shared by both escape paths: the lowercased
label is one of exit, close, cancel. -/
def isDefaultEscapeLabel (b : MButton) : Bool :=
  lowerStr b.label = "exit" || lowerStr b.label = "close" || lowerStr b.label = "cancel"

/-- The fallback search in `Modal.handleKeyDown` for Escape:
`this.buttons.find((b) => ['exit', 'close', 'cancel'].includes(b.label.toLowerCase()))`. -/
def escapeFindKeyboard (bs : List MButton) : Option MButton :=
  bs.find? fun b => ["exit", "close", "cancel"].contains (lowerStr b.label)

/-- The search in `Modal.handleGamepadButton` for button 1:
`this.buttons.find((b) => b.label.toLowerCase() === 'exit' || ... 'close' ||
... 'cancel')`.  Note it never consults `escapeButtonLabel`. -/
def escapeFindGamepad (bs : List MButton) : Option MButton :=
  bs.find? fun b => lowerStr b.label = "exit" || lowerStr b.label = "close"
    || lowerStr b.label = "cancel"

/-- The Escape-key resolution of `Modal.handleKeyDown`: the caller-specified
`escapeButtonLabel` (case-insensitive) takes precedence, else the default
exit/close/cancel search. -/
def Modal.escapeResolve (m : Modal) : Option MButton :=
  match m.escapeButtonLabel with
  | some l => m.buttons.find? fun b => lowerStr b.label = lowerStr l
  | none => escapeFindKeyboard m.buttons

/-- `closeModal(modal)`: remove the first stack entry with the modal's
identity (`indexOf` + `splice`); no-op when absent. -/
def removeFirstModal : List Modal → Nat → List Modal
  | [], _ => []
  | m :: rest, mid => if m.mid = mid then rest else m :: removeFirstModal rest mid

/-- The Escape branch of `Modal.handleKeyDown`: resolve a button, invoke its
callback if it has one (first component), then `close()` (second component is
the updated modal stack). -/
def Modal.handleKeyDownEscape (m : Modal) (stack : List Modal) :
    Option BCallback × List Modal :=
  (m.escapeResolve.bind MButton.callback, removeFirstModal stack m.mid)

/-- The button-1 branch of `Modal.handleGamepadButton`: find a default-labeled
button, invoke its callback if any, then `close()`. -/
def Modal.handleGamepadButton1 (m : Modal) (stack : List Modal) :
    Option BCallback × List Modal :=
  ((escapeFindGamepad m.buttons).bind MButton.callback, removeFirstModal stack m.mid)

/-- A modal whose caller set `escapeButtonLabel: 'Back'` on its single button
labeled Back with caller callback id 7. -/
def modalC2 : Modal := ⟨5, [⟨"Back", some (BCallback.user 7)⟩], some "Back"⟩

/-- C2 counterexample: on this modal, Escape resolves to the Back button via
`escapeButtonLabel` and invokes caller callback 7, but gamepad button 1 —
which the claim says resolves to the same button callback — invokes nothing,
because `handleGamepadButton` only searches for exit/close/cancel and ignores
`escapeButtonLabel`.  (Both paths do close the modal.) -/
theorem C2_counterexample :
    (modalC2.handleKeyDownEscape [modalC2]).1 = some (BCallback.user 7)
    ∧ (modalC2.handleGamepadButton1 [modalC2]).1 = none
    ∧ (modalC2.handleKeyDownEscape [modalC2]).2 = []
    ∧ (modalC2.handleGamepadButton1 [modalC2]).2 = [] := by
  decide

theorem find?_eq_some_first {α : Type} (p : α → Bool) (l : List α) (b : α)
    (h : l.find? p = some b) :
    p b = true ∧ ∃ i, ∃ hi : i < l.length, l.get ⟨i, hi⟩ = b
      ∧ ∀ k, ∀ hk : k < l.length, k < i → p (l.get ⟨k, hk⟩) = false := by
  induction l with
  | nil => simp [List.find?] at h
  | cons a rest ih =>
    rw [List.find?_cons] at h
    cases hpa : p a with
    | true =>
      rw [hpa] at h
      obtain rfl : a = b := by simpa using h
      exact ⟨hpa, 0, by simp, rfl, fun k hk hk0 => absurd hk0 (Nat.not_lt_zero k)⟩
    | false =>
      rw [hpa] at h
      replace h : List.find? p rest = some b := h
      obtain ⟨hpb, i, hi, hget, hbefore⟩ := ih h
      refine ⟨hpb, i + 1, by simpa using Nat.succ_lt_succ hi, hget, ?_⟩
      intro k hk hki
      match k with
      | 0 => simpa using hpa
      | k + 1 =>
        have hk2 : k < rest.length := by simpa using Nat.lt_of_succ_lt_succ hk
        have := hbefore k hk2 (Nat.lt_of_succ_lt_succ hki)
        simpa using this

theorem keyboard_pred_eq (b : MButton) :
    (["exit", "close", "cancel"].contains (lowerStr b.label)) = isDefaultEscapeLabel b := by
  by_cases h1 : lowerStr b.label = "exit" <;>
    by_cases h2 : lowerStr b.label = "close" <;>
      by_cases h3 : lowerStr b.label = "cancel" <;>
        simp [isDefaultEscapeLabel, List.contains, h1, h2, h3]

theorem escapeFind_eq (bs : List MButton) : escapeFindGamepad bs = escapeFindKeyboard bs := by
  induction bs with
  | nil => rfl
  | cons b rest ih =>
    unfold escapeFindGamepad escapeFindKeyboard at ih ⊢
    rw [List.find?_cons, List.find?_cons, keyboard_pred_eq]
    unfold isDefaultEscapeLabel
    split <;> [rfl; exact ih]

/-- C2 (amended): gamepad button 1 always applies the default
exit/close/cancel rule, ignoring `escapeButtonLabel` — it matches Escape only
when no `escapeButtonLabel` is set; Escape gives the caller-specified label
precedence; when the default rule matches no button the gamepad path invokes
no callback; both paths always remove the modal from the stack; and a
successful default search indeed returns the first button (in order) whose
lowercased label is exit, close, or cancel. -/
theorem C2_modal_escape_gamepad (m : Modal) (stack : List Modal) :
    escapeFindGamepad m.buttons = escapeFindKeyboard m.buttons
    ∧ (m.escapeButtonLabel = none → m.escapeResolve = escapeFindKeyboard m.buttons)
    ∧ (∀ l, m.escapeButtonLabel = some l →
        m.escapeResolve = m.buttons.find? fun b => lowerStr b.label = lowerStr l)
    ∧ (m.handleKeyDownEscape stack).2 = removeFirstModal stack m.mid
    ∧ (m.handleGamepadButton1 stack).2 = removeFirstModal stack m.mid
    ∧ (escapeFindKeyboard m.buttons = none → (m.handleGamepadButton1 stack).1 = none)
    ∧ (∀ b, escapeFindKeyboard m.buttons = some b →
        isDefaultEscapeLabel b = true
        ∧ ∃ i, ∃ hi : i < m.buttons.length, m.buttons.get ⟨i, hi⟩ = b
            ∧ ∀ k, ∀ hk : k < m.buttons.length, k < i →
                isDefaultEscapeLabel (m.buttons.get ⟨k, hk⟩) = false) := by
  refine ⟨escapeFind_eq m.buttons, ?_, ?_, rfl, rfl, ?_, ?_⟩
  · intro h
    rw [Modal.escapeResolve, h]
  · intro l h
    rw [Modal.escapeResolve, h]
  · intro h
    rw [Modal.handleGamepadButton1, escapeFind_eq, h]
    rfl
  · intro b h
    have h2 := find?_eq_some_first _ _ _ h
    rw [keyboard_pred_eq] at h2
    refine ⟨h2.1, ?_⟩
    obtain ⟨i, hi, hget, hbefore⟩ := h2.2
    refine ⟨i, hi, hget, fun k hk hki => ?_⟩
    have := hbefore k hk hki
    rwa [keyboard_pred_eq] at this

/-- Witness for `C2_modal_escape_gamepad` at a modal carrying a Cancel button
behind a Save button, with no `escapeButtonLabel`: the default rule finds the
Cancel button at index 1, both paths close the modal. -/
theorem C2_modal_escape_gamepad_witness :
    (escapeFindGamepad (Modal.mk 3 [⟨"Save", some (BCallback.user 1)⟩,
        ⟨"Cancel", some (BCallback.user 2)⟩] none).buttons
      = escapeFindKeyboard (Modal.mk 3 [⟨"Save", some (BCallback.user 1)⟩,
        ⟨"Cancel", some (BCallback.user 2)⟩] none).buttons)
    ∧ ((Modal.mk 3 [⟨"Save", some (BCallback.user 1)⟩,
        ⟨"Cancel", some (BCallback.user 2)⟩] none).escapeResolve
      = some ⟨"Cancel", some (BCallback.user 2)⟩) := by
  have h := C2_modal_escape_gamepad
    (Modal.mk 3 [⟨"Save", some (BCallback.user 1)⟩, ⟨"Cancel", some (BCallback.user 2)⟩] none) []
  refine ⟨h.1, ?_⟩
  rw [h.2.1 rfl]
  decide

/-- C8: `showModal('T', 'msg', [])` yields exactly one auto-generated button
labeled OK; with no `escapeButtonLabel` and no exit/close/cancel label,
Escape resolves to no button, invokes no callback (in particular no
caller-supplied callback), and removes the modal from the stack. -/
theorem C8_empty_buttons_modal :
    (mkModal 0 [] none).buttons = [⟨"OK", some BCallback.autoClose⟩]
    ∧ (mkModal 0 [] none).buttons.map MButton.label = ["OK"]
    ∧ (mkModal 0 [] none).escapeResolve = none
    ∧ ((mkModal 0 [] none).handleKeyDownEscape [mkModal 0 [] none]).1 = none
    ∧ ((mkModal 0 [] none).handleKeyDownEscape [mkModal 0 [] none]).2 = [] := by
  decide

/-- A `typeConfig` entry: accent color and glyph. -/
structure ToastConfig where
  color : String
  icon : String
  deriving DecidableEq

/-- The `info` entry of `typeConfig`, also the fallback of
`this.typeConfig[type] || this.typeConfig.info`. -/
def infoConfig : ToastConfig := ⟨"#2196F3", "ℹ"⟩

/-- The `typeConfig` table of the `Toast` constructor. -/
def toastTypeConfig : List (String × ToastConfig) :=
  [("info", infoConfig), ("success", ⟨"#4CAF50", "✓"⟩),
   ("warning", ⟨"#FF9800", "⚠"⟩), ("error", ⟨"#F44336", "✕"⟩)]

/-- The member names a JavaScript object literal inherits from
`Object.prototype`, all bound to truthy function/object values, which a
computed property read `typeConfig[type]` also reaches. -/
def objectProtoKeys : List String :=
  ["constructor", "hasOwnProperty", "isPrototypeOf", "propertyIsEnumerable",
   "toLocaleString", "toString", "valueOf", "__defineGetter__", "__defineSetter__",
   "__lookupGetter__", "__lookupSetter__", "__proto__"]

/-- What `this.typeConfig[type] || this.typeConfig.info` can produce: one of
the four configuration entries (or the info fallback), or — when `type` names
a member inherited from `Object.prototype` — that truthy inherited value,
which is no toast configuration at all (its `color` and `icon` read as
undefined). -/
inductive JSToastConfig
  | entry (cfg : ToastConfig)
  | protoJunk (name : String)
  deriving DecidableEq

/-- `this.config = this.typeConfig[type] || this.typeConfig.info`: an own key
of the literal wins; otherwise a member inherited from `Object.prototype` is
truthy and preempts the `||` fallback; otherwise the lookup is undefined
(falsy) and the info entry is used. -/
def toastConfigFor (ttype : String) : JSToastConfig :=
  match (toastTypeConfig.find? fun kv => kv.1 = ttype).map Prod.snd with
  | some cfg => .entry cfg
  | none =>
    if ttype ∈ objectProtoKeys then .protoJunk ttype else .entry infoConfig

/-- A `Toast` as built by the constructor: identity (for the scheduled
`indexOf` removal), message, the stored `type` string, `duration`, the fixed
geometry, and the resolved `config` — the only type-dependent datum the
rendering reads. -/
structure Toast where
  tid : Nat
  message : String
  ttype : String
  duration : ℚ
  width : ℚ
  height : ℚ
  padding : ℚ
  config : JSToastConfig
  deriving DecidableEq

/-- The `Toast` constructor (total: it never throws, whatever the type). -/
def mkToast (tid : Nat) (message ttype : String) (duration : ℚ) : Toast :=
  ⟨tid, message, ttype, duration, 300, 80, 15, toastConfigFor ttype⟩

/-- C10 counterexample: `toString` is not one of the four kinds, yet the
computed read `typeConfig['toString']` hits the inherited
`Object.prototype.toString`, which is truthy, so the `|| info` fallback never
runs and the toast's config is that inherited function — not the info
configuration, and not equal to the config of a toast of type `info`.  This
refutes the claim for the inherited-member names. -/
theorem C10_counterexample :
    ("toString" ∉ (["info", "success", "warning", "error"] : List String))
    ∧ toastConfigFor "toString" = JSToastConfig.protoJunk "toString"
    ∧ toastConfigFor "toString" ≠ toastConfigFor "info"
    ∧ (mkToast 0 "hello" "toString" 3000).config ≠ (mkToast 0 "hello" "info" 3000).config := by
  refine ⟨by decide, by decide, by decide, by decide⟩

/-- C10 (amended): for every type string that is neither one of the four
known kinds nor the name of a member inherited from `Object.prototype`, the
`Toast` constructor succeeds and resolves the info configuration (accent
`#2196F3`, glyph `ℹ`), so the toast renders identically to one of type `info`
(`draw` reads only `config`, `message` and the fixed geometry, never the
stored type string); for the inherited-member names the truthy prototype-chain
hit preempts the fallback and the config is that inherited value instead. -/
theorem C10_toast_unknown_type (ttype message : String) (duration : ℚ) (tid : Nat)
    (h : ttype ∉ (["info", "success", "warning", "error"] : List String))
    (hp : ttype ∉ objectProtoKeys) :
    toastConfigFor ttype = JSToastConfig.entry ⟨"#2196F3", "ℹ"⟩
    ∧ (mkToast tid message ttype duration).config = (mkToast tid message "info" duration).config
    ∧ (mkToast tid message ttype duration).duration = duration
    ∧ (∀ t2, t2 ∈ objectProtoKeys → toastConfigFor t2 = JSToastConfig.protoJunk t2) := by
  simp only [List.mem_cons, List.mem_singleton, not_or] at h
  obtain ⟨h1, h2, h3, h4, -⟩ := h
  have hfind : toastConfigFor ttype = JSToastConfig.entry infoConfig := by
    rw [toastConfigFor, toastTypeConfig]
    rw [List.find?_cons, List.find?_cons, List.find?_cons, List.find?_cons]
    simp [Ne.symm h1, Ne.symm h2, Ne.symm h3, Ne.symm h4, hp]
  have hinfo : toastConfigFor "info" = JSToastConfig.entry infoConfig := by decide
  refine ⟨hfind, ?_, rfl, ?_⟩
  · show toastConfigFor ttype = toastConfigFor "info"
    rw [hfind, hinfo]
  · intro t2 ht2
    fin_cases ht2 <;> decide

/-- Witness for `C10_toast_unknown_type` at the unknown type string `banana`,
which is neither a known kind nor an inherited member name. -/
theorem C10_toast_unknown_type_witness :
    toastConfigFor "banana" = JSToastConfig.entry ⟨"#2196F3", "ℹ"⟩
    ∧ (mkToast 0 "hello" "banana" 3000).config = (mkToast 0 "hello" "info" 3000).config
    ∧ (mkToast 0 "hello" "banana" 3000).duration = 3000
    ∧ (∀ t2, t2 ∈ objectProtoKeys → toastConfigFor t2 = JSToastConfig.protoJunk t2) :=
  C10_toast_unknown_type "banana" "hello" 3000 0 (by decide) (by decide)

/-- A registered control as the manager dispatch sees it: identity (for the
`indexOf` removal), bounding box, whether it is a `Panel` (whose overridden
`containsPoint` always reports false), and whether it implements
`handleClick`. -/
structure Ctrl where
  cid : Nat
  x : ℚ
  y : ℚ
  width : ℚ
  height : ℚ
  isPanel : Bool
  hasClick : Bool
  deriving DecidableEq

/-- `control.containsPoint(x, y)`: the base bounding-box test, except that
`Panel` overrides it to return false unconditionally. -/
def Ctrl.containsPoint (c : Ctrl) (px py : ℚ) : Bool :=
  if c.isPanel then false
  else px ≥ c.x && px ≤ c.x + c.width && py ≥ c.y && py ≤ c.y + c.height

/-- An `addText` overlay entry. -/
structure TextOverlay where
  text : String
  x : ℚ
  y : ℚ
  font : String
  color : String
  deriving DecidableEq

/-- An `addImage` overlay entry. -/
structure ImageOverlay where
  x : ℚ
  y : ℚ
  width : ℚ
  height : ℚ
  deriving DecidableEq

/-- The default-font descriptor (`this.defaultFont`); the numeric `size` is
carried as a literal string. -/
structure FontDesc where
  family : String
  size : String
  weight : String
  style : String
  deriving DecidableEq

/-- The background-related entries of `this.options`. -/
structure UIOptions where
  backgroundColor : String
  backgroundGradient : Option (List (ℚ × String))
  gradientDirection : Option String
  noBackground : Bool
  deriving DecidableEq

/-- The manager state: control sequence, focus index, modal stack, toast list
with the pending `setTimeout` auto-dismiss entries (absolute deadline with the
toast identity the closure captured), overlay lists, the escape-handler slot,
the live theme mapping, the default-font descriptor, the options, and the host
wall clock. -/
structure MarkJSCanvasUI where
  controls : List Ctrl
  focusIndex : Int
  modals : List Modal
  toasts : List Toast
  toastTimers : List (ℚ × Nat)
  texts : List TextOverlay
  images : List ImageOverlay
  onEscape : Bool
  theme : List (String × String)
  defaultFont : FontDesc
  options : UIOptions
  now : ℚ
  deriving DecidableEq

/-- `addControl(control)`: append; if no focus was set and this is the first
control, focus index 0.  (The `applyTheme` call only touches the control's
resolved style options, which this dispatch model does not carry.) -/
def MarkJSCanvasUI.addControl (s : MarkJSCanvasUI) (c : Ctrl) : MarkJSCanvasUI :=
  let controls := s.controls ++ [c]
  if s.focusIndex = -1 ∧ controls.length = 1 then
    { s with controls := controls, focusIndex := 0 }
  else
    { s with controls := controls }

/-- `Array.prototype.indexOf` on the control sequence, identity modelled by
the control id: index of the first entry with this id. -/
def indexOfCid : List Ctrl → Nat → Option Nat
  | [], _ => none
  | c :: rest, cid => if c.cid = cid then some 0 else (indexOfCid rest cid).map (· + 1)

/-- `removeControl(control)`: `indexOf` by identity, `splice`, then clamp the
focus index to the new last index when it points past the end. -/
def MarkJSCanvasUI.removeControl (s : MarkJSCanvasUI) (cid : Nat) : MarkJSCanvasUI :=
  match indexOfCid s.controls cid with
  | some i =>
    let controls := s.controls.eraseIdx i
    if s.focusIndex ≥ (controls.length : Int) then
      { s with controls := controls, focusIndex := (controls.length : Int) - 1 }
    else
      { s with controls := controls }
  | none => s

/-- `removeAllControls()`: clears controls, focus, overlay texts and images,
modals, toasts, and the escape handler; the pending toast `setTimeout`
closures are owned by the host and are not cancelled. -/
def MarkJSCanvasUI.removeAllControls (s : MarkJSCanvasUI) : MarkJSCanvasUI :=
  { s with controls := [], focusIndex := -1, texts := [], images := [], modals := [],
           toasts := [], onEscape := false }

/-- `removeAllControlsExceptToasts()`: as above but the toast list is left
untouched. -/
def MarkJSCanvasUI.removeAllControlsExceptToasts (s : MarkJSCanvasUI) : MarkJSCanvasUI :=
  { s with controls := [], focusIndex := -1, texts := [], images := [], modals := [],
           onEscape := false }

/-- `focusNext()`: `(focusIndex + 1) % controls.length`, no-op when empty. -/
def MarkJSCanvasUI.focusNext (s : MarkJSCanvasUI) : MarkJSCanvasUI :=
  if s.controls.length = 0 then s
  else { s with focusIndex := jsMod (s.focusIndex + 1) (s.controls.length : Int) }

/-- `focusPrevious()`: `(focusIndex - 1 + controls.length) % controls.length`,
no-op when empty. -/
def MarkJSCanvasUI.focusPrevious (s : MarkJSCanvasUI) : MarkJSCanvasUI :=
  if s.controls.length = 0 then s
  else
    let n : Int := (s.controls.length : Int)
    { s with focusIndex := jsMod (s.focusIndex - 1 + n) n }

/-- The reverse-order scan of `onMouseClick`: the topmost (= last in sequence
order) control whose `containsPoint` holds, with its index. -/
def findTopHit (px py : ℚ) : List Ctrl → Option (Nat × Ctrl)
  | [] => none
  | c :: rest =>
    match findTopHit px py rest with
    | some (j, c0) => some (j + 1, c0)
    | none => if c.containsPoint px py then some (0, c) else none

/-- Where a click event ended up: the top modal, a control with a click
handler, a control without one (focus change only), or nowhere. -/
inductive ClickRoute
  | toModal (mid : Nat)
  | toControl (cid : Nat)
  | focusOnly (cid : Nat)
  | noHit
  deriving DecidableEq

/-- `onMouseClick(x, y)`: with a modal present route the whole event to the
top of the stack and return; otherwise scan controls topmost-first, focus the
first hit and deliver the click to it if it implements a handler.  The second
component records the single delivery the event produced. -/
def MarkJSCanvasUI.onMouseClick (s : MarkJSCanvasUI) (px py : ℚ) :
    MarkJSCanvasUI × ClickRoute :=
  match s.modals.getLast? with
  | some m => (s, .toModal m.mid)
  | none =>
    match findTopHit px py s.controls with
    | some (i, c) =>
      ({ s with focusIndex := (i : Int) },
       if c.hasClick then .toControl c.cid else .focusOnly c.cid)
    | none => (s, .noHit)

/-- Association-list update modelling one key of a JavaScript object spread:
the new binding shadows any previous one. -/
def themeSet (t : List (String × String)) (k v : String) : List (String × String) :=
  (k, v) :: t.filter fun kv => kv.1 ≠ k

/-- Property read on the theme object. -/
def themeGet (t : List (String × String)) (k : String) : Option String :=
  (t.find? fun kv => kv.1 = k).map Prod.snd

/-- `{...theme, ...themeOptions}`: later entries shadow earlier ones. -/
def themeMerge (t : List (String × String)) (opts : List (String × String)) :
    List (String × String) :=
  opts.foldl (fun acc kv => themeSet acc kv.1 kv.2) t

/-- Property read on the caller's `themeOptions` object (for duplicate literal
keys the later entry wins, as in a JavaScript object literal). -/
def lookupOpt : List (String × String) → String → Option String
  | [], _ => none
  | kv :: rest, k =>
    match lookupOpt rest k with
    | some v => some v
    | none => if kv.1 = k then some kv.2 else none

/-- A JavaScript truthiness-guarded read (`if (themeOptions.key)`): an absent
key or an empty-string value both count as falsy. -/
def truthyLookup (opts : List (String × String)) (k : String) : Option String :=
  match lookupOpt opts k with
  | some v => if v = "" then none else some v
  | none => none

/-- `setTheme(themeOptions)`: shallow-merge into the theme; if the options
carry a (truthy) `backgroundColor`, also overwrite
`this.options.backgroundColor`; if any font-related key is present (truthy),
rebuild the default-font descriptor. -/
def MarkJSCanvasUI.setTheme (s : MarkJSCanvasUI) (themeOptions : List (String × String)) :
    MarkJSCanvasUI :=
  let theme := themeMerge s.theme themeOptions
  let options :=
    match truthyLookup themeOptions "backgroundColor" with
    | some v => { s.options with backgroundColor := v }
    | none => s.options
  let fontKeysPresent :=
    (truthyLookup themeOptions "fontFamily").isSome
    || (truthyLookup themeOptions "fontSize").isSome
    || (truthyLookup themeOptions "fontWeight").isSome
    || (truthyLookup themeOptions "fontStyle").isSome
    || (truthyLookup themeOptions "family").isSome
    || (truthyLookup themeOptions "size").isSome
    || (truthyLookup themeOptions "weight").isSome
    || (truthyLookup themeOptions "style").isSome
  let defaultFont :=
    if fontKeysPresent then
      { family := (((truthyLookup themeOptions "fontFamily").orElse
          fun _ => truthyLookup themeOptions "family").getD s.defaultFont.family),
        size := (((truthyLookup themeOptions "fontSize").orElse
          fun _ => truthyLookup themeOptions "size").getD s.defaultFont.size),
        weight := (((truthyLookup themeOptions "fontWeight").orElse
          fun _ => truthyLookup themeOptions "weight").getD s.defaultFont.weight),
        style := (((truthyLookup themeOptions "fontStyle").orElse
          fun _ => truthyLookup themeOptions "style").getD s.defaultFont.style) }
    else s.defaultFont
  { s with theme := theme, options := options, defaultFont := defaultFont }

/-- The background fill `render()` paints before everything else: nothing in
no-background mode, a linear gradient (with direction defaulting to diagonal)
when one is set, else the solid background color. -/
inductive Fill
  | solid (color : String)
  | gradient (direction : String) (stops : List (ℚ × String))
  deriving DecidableEq

/-- The fill-style selection at the top of `render()`. -/
def MarkJSCanvasUI.renderFill (s : MarkJSCanvasUI) : Option Fill :=
  if s.options.noBackground then none
  else
    match s.options.backgroundGradient with
    | some stops => some (.gradient (s.options.gradientDirection.getD "diagonal") stops)
    | none => some (.solid s.options.backgroundColor)

/-- `showToast(message, type, duration)`: construct, append, and register the
one-shot host timer that will remove this toast `duration` from now. -/
def MarkJSCanvasUI.showToast (s : MarkJSCanvasUI) (message ttype : String) (duration : ℚ)
    (tid : Nat) : MarkJSCanvasUI :=
  { s with toasts := s.toasts ++ [mkToast tid message ttype duration],
           toastTimers := s.toastTimers ++ [(s.now + duration, tid)] }

/-- The manager operations quantified over by the focus invariant. -/
inductive MOp
  | add (c : Ctrl)
  | remove (cid : Nat)
  | removeAll
  | removeAllExceptToasts
  | next
  | prev
  | click (px py : ℚ)
  deriving DecidableEq

/-- Apply one manager operation. -/
def applyOp (s : MarkJSCanvasUI) : MOp → MarkJSCanvasUI
  | .add c => s.addControl c
  | .remove cid => s.removeControl cid
  | .removeAll => s.removeAllControls
  | .removeAllExceptToasts => s.removeAllControlsExceptToasts
  | .next => s.focusNext
  | .prev => s.focusPrevious
  | .click px py => (s.onMouseClick px py).1

/-- The theme defaults installed by the constructor (numeric values carried as
literal strings). -/
def defaultTheme : List (String × String) :=
  [("controlColor", "#4CAF50"), ("controlSurfaceColor", "#333333"),
   ("controlTextColor", "#ffffff"), ("controlBorderColor", "#666666"),
   ("controlFocusBorderColor", "#4CAF50"), ("controlClickColor", "#388E3C"),
   ("menuButtonColor", "#4CAF50"), ("menuButtonActiveColor", "#388E3C"),
   ("menuButtonClickColor", "#2E7D32"), ("menuButtonBorderColor", "#666666"),
   ("menuButtonFocusBorderColor", "#4CAF50"), ("menuButtonFontSize", "16"),
   ("modalSurfaceColor", "#222222"), ("modalBorderColor", "#888888"),
   ("modalTextColor", "#ffffff"), ("modalText2Color", "#cccccc"),
   ("modalTextFontSize", "18"), ("modalText2FontSize", "14"),
   ("panelSurfaceColor", "#2a2a2a"), ("panelBorderColor", "#4CAF50"),
   ("borderRadius", "6"), ("borderWidth", "2"), ("fontFamily", "Arial"),
   ("fontSize", "16"), ("padding", "10")]

/-- The state the constructor produces (with no caller background options):
empty collections, focus -1, the default theme and font, solid background
`#1a1a1a`. -/
def initState : MarkJSCanvasUI :=
  { controls := [], focusIndex := -1, modals := [], toasts := [], toastTimers := [],
    texts := [], images := [], onEscape := false, theme := defaultTheme,
    defaultFont := ⟨"Arial", "16", "normal", "normal"⟩,
    options := ⟨"#1a1a1a", none, none, false⟩, now := 0 }

/-- C7: `removeAllControls` clears controls, focus (to -1), overlay texts and
images, modals, toasts, and the escape handler; the ExceptToasts variant
clears the same state but leaves the toast list and the pending auto-dismiss
timer entries untouched; and neither operation changes the background
configuration (the options record holding solid color, gradient, direction and
no-background mode is preserved by both). -/
theorem C7_removeAll_effects (s : MarkJSCanvasUI) :
    (s.removeAllControls.controls = []
      ∧ s.removeAllControls.focusIndex = -1
      ∧ s.removeAllControls.texts = []
      ∧ s.removeAllControls.images = []
      ∧ s.removeAllControls.modals = []
      ∧ s.removeAllControls.toasts = []
      ∧ s.removeAllControls.onEscape = false
      ∧ s.removeAllControls.options = s.options)
    ∧ (s.removeAllControlsExceptToasts.controls = []
      ∧ s.removeAllControlsExceptToasts.focusIndex = -1
      ∧ s.removeAllControlsExceptToasts.texts = []
      ∧ s.removeAllControlsExceptToasts.images = []
      ∧ s.removeAllControlsExceptToasts.modals = []
      ∧ s.removeAllControlsExceptToasts.onEscape = false
      ∧ s.removeAllControlsExceptToasts.toasts = s.toasts
      ∧ s.removeAllControlsExceptToasts.toastTimers = s.toastTimers
      ∧ s.removeAllControlsExceptToasts.options = s.options) :=
  ⟨⟨rfl, rfl, rfl, rfl, rfl, rfl, rfl, rfl⟩, rfl, rfl, rfl, rfl, rfl, rfl, rfl, rfl, rfl⟩

theorem find?_filter_eq {α : Type} (p q : α → Bool) (l : List α)
    (h : ∀ a, p a = true → q a = true) :
    (l.filter q).find? p = l.find? p := by
  induction l with
  | nil => rfl
  | cons a rest ih =>
    cases hq : q a with
    | true =>
      rw [List.filter_cons_of_pos hq, List.find?_cons, List.find?_cons]
      cases hp : p a with
      | true => rfl
      | false => exact ih
    | false =>
      have hp : p a = false := by
        cases hpa : p a with
        | true => exact absurd (h a hpa) (by rw [hq]; exact Bool.false_ne_true)
        | false => rfl
      rw [List.filter_cons_of_neg (by rw [hq]; exact Bool.false_ne_true), List.find?_cons, hp]
      exact ih

theorem themeGet_themeSet (t : List (String × String)) (k0 v0 k : String) :
    themeGet (themeSet t k0 v0) k = if k0 = k then some v0 else themeGet t k := by
  by_cases h : k0 = k
  · rw [if_pos h]
    rw [themeGet, themeSet, List.find?_cons]
    simp [h]
  · rw [if_neg h]
    rw [themeGet, themeSet, List.find?_cons]
    have hcond : (decide ((k0, v0).1 = k)) = false := by simp [h]
    rw [hcond]
    rw [themeGet]
    congr 1
    exact find?_filter_eq _ _ t fun a ha => by
      simp at ha ⊢
      intro hak0
      exact h (hak0 ▸ ha)

theorem themeGet_merge (t : List (String × String)) (opts : List (String × String))
    (k : String) :
    themeGet (themeMerge t opts) k =
      match lookupOpt opts k with
      | some v => some v
      | none => themeGet t k := by
  induction opts generalizing t with
  | nil => rfl
  | cons kv rest ih =>
    have hstep : themeMerge t (kv :: rest) = themeMerge (themeSet t kv.1 kv.2) rest := rfl
    have hlook : lookupOpt (kv :: rest) k = (match lookupOpt rest k with
      | some v => some v
      | none => if kv.1 = k then some kv.2 else none) := rfl
    rw [hstep, ih, hlook]
    cases hrest : lookupOpt rest k with
    | some v => rfl
    | none =>
      by_cases hk : kv.1 = k
      · simp [themeGet_themeSet, hk]
      · simp [themeGet_themeSet, hk]

/-- C9: `setTheme` with a (truthy) `backgroundColor` entry both shallow-merges
it into the live theme mapping and overwrites
`this.options.backgroundColor`, while leaving the gradient and no-background
settings alone — so as long as the manager stays in solid-color mode, every
subsequent `render()` fills the surface with the new color. -/
theorem C9_setTheme_background (s : MarkJSCanvasUI) (topts : List (String × String))
    (c : String) (hc : lookupOpt topts "backgroundColor" = some c) (hne : c ≠ "") :
    themeGet (s.setTheme topts).theme "backgroundColor" = some c
    ∧ (s.setTheme topts).options.backgroundColor = c
    ∧ (s.setTheme topts).options.backgroundGradient = s.options.backgroundGradient
    ∧ (s.setTheme topts).options.noBackground = s.options.noBackground
    ∧ (s.options.backgroundGradient = none → s.options.noBackground = false →
        (s.setTheme topts).renderFill = some (Fill.solid c)) := by
  have htruthy : truthyLookup topts "backgroundColor" = some c := by
    rw [truthyLookup, hc]
    exact if_neg hne
  have hopts : (s.setTheme topts).options = { s.options with backgroundColor := c } := by
    rw [MarkJSCanvasUI.setTheme, htruthy]
  refine ⟨?_, ?_, ?_, ?_, ?_⟩
  · rw [show (s.setTheme topts).theme = themeMerge s.theme topts from by
      rw [MarkJSCanvasUI.setTheme]]
    rw [themeGet_merge, hc]
  · rw [hopts]
  · rw [hopts]
  · rw [hopts]
  · intro hgrad hnobg
    rw [MarkJSCanvasUI.renderFill, hopts]
    have h1 : ({ s.options with backgroundColor := c } : UIOptions).noBackground = false := hnobg
    have h2 : ({ s.options with backgroundColor := c } : UIOptions).backgroundGradient
        = none := hgrad
    rw [h1, if_neg (by exact Bool.false_ne_true), h2]

/-- Witness for `C9_setTheme_background`: from the constructor state, setting
the theme with `backgroundColor: '#123456'` recolors both the theme mapping
and the solid render fill. -/
theorem C9_setTheme_background_witness :
    themeGet (initState.setTheme [("backgroundColor", "#123456")]).theme "backgroundColor"
        = some "#123456"
    ∧ (initState.setTheme [("backgroundColor", "#123456")]).options.backgroundColor = "#123456"
    ∧ (initState.setTheme [("backgroundColor", "#123456")]).options.backgroundGradient
        = initState.options.backgroundGradient
    ∧ (initState.setTheme [("backgroundColor", "#123456")]).options.noBackground
        = initState.options.noBackground
    ∧ (initState.options.backgroundGradient = none → initState.options.noBackground = false →
        (initState.setTheme [("backgroundColor", "#123456")]).renderFill
          = some (Fill.solid "#123456")) :=
  C9_setTheme_background initState [("backgroundColor", "#123456")] "#123456"
    (by decide) (by decide)

theorem findTopHit_none (px py : ℚ) (cs : List Ctrl)
    (h : ∀ k, ∀ hk : k < cs.length, (cs.get ⟨k, hk⟩).containsPoint px py = false) :
    findTopHit px py cs = none := by
  induction cs with
  | nil => rfl
  | cons c rest ih =>
    have hrest : findTopHit px py rest = none := ih fun k hk => by
      have := h (k + 1) (by simpa using Nat.succ_lt_succ hk)
      simpa using this
    have hc : c.containsPoint px py = false := by
      have := h 0 (Nat.succ_pos _)
      simpa using this
    simp only [findTopHit, hrest]
    rw [if_neg (by simp [hc])]

theorem findTopHit_lt (px py : ℚ) (cs : List Ctrl) (i : Nat) (cfound : Ctrl)
    (h : findTopHit px py cs = some (i, cfound)) : i < cs.length := by
  induction cs generalizing i cfound with
  | nil => simp [findTopHit] at h
  | cons c0 rest ih =>
    rw [show findTopHit px py (c0 :: rest) = (match findTopHit px py rest with
      | some (j, cc) => some (j + 1, cc)
      | none => if c0.containsPoint px py then some (0, c0) else none) from rfl] at h
    cases hr : findTopHit px py rest with
    | some jc =>
      obtain ⟨j0, cc⟩ := jc
      rw [hr] at h
      simp only [Option.some.injEq, Prod.mk.injEq] at h
      have hlt := ih j0 cc hr
      have : j0 + 1 = i := h.1
      simp only [List.length_cons]
      omega
    | none =>
      rw [hr] at h
      by_cases hcond : c0.containsPoint px py = true
      · rw [if_pos hcond] at h
        simp only [Option.some.injEq, Prod.mk.injEq] at h
        have : (0 : Nat) = i := h.1
        simp only [List.length_cons]
        omega
      · rw [if_neg hcond] at h
        exact absurd h (by simp)

theorem findTopHit_spec (px py : ℚ) (cs : List Ctrl) (j : Nat) (hj : j < cs.length)
    (hc : (cs.get ⟨j, hj⟩).containsPoint px py = true)
    (habove : ∀ k, ∀ hk : k < cs.length, j < k →
      (cs.get ⟨k, hk⟩).containsPoint px py = false) :
    findTopHit px py cs = some (j, cs.get ⟨j, hj⟩) := by
  induction cs generalizing j with
  | nil => exact absurd hj (Nat.not_lt_zero j)
  | cons c rest ih =>
    match j, hj with
    | 0, hj =>
      have hnone : findTopHit px py rest = none := by
        apply findTopHit_none
        intro k hk
        have := habove (k + 1) (by simpa using Nat.succ_lt_succ hk) (Nat.succ_pos k)
        simpa using this
      have hc0 : c.containsPoint px py = true := hc
      simp only [findTopHit, hnone]
      rw [if_pos hc0]
      rfl
    | j' + 1, hj =>
      have hj' : j' < rest.length := Nat.lt_of_succ_lt_succ hj
      have hc' : (rest.get ⟨j', hj'⟩).containsPoint px py = true := hc
      have hab' : ∀ k, ∀ hk : k < rest.length, j' < k →
          (rest.get ⟨k, hk⟩).containsPoint px py = false := by
        intro k hk hkj
        have := habove (k + 1) (by simpa using Nat.succ_lt_succ hk) (Nat.succ_lt_succ hkj)
        simpa using this
      have hrec := ih j' hj' hc' hab'
      simp only [findTopHit, hrec]
      rfl

/-- C4: click dispatch.  With a modal on top of the stack, the event goes
entirely to that modal and the manager state (controls, focus) is untouched.
With no modal, if control `j` contains the click point and no control above it
does, then `j` becomes the focus index and the event's single delivery is to
control `j` exactly when it implements a click handler (no other control
receives anything).  If no control contains the point, nothing changes. -/
theorem C4_click_dispatch (s : MarkJSCanvasUI) (px py : ℚ) :
    (∀ m, s.modals.getLast? = some m →
      s.onMouseClick px py = (s, ClickRoute.toModal m.mid))
    ∧ (s.modals = [] → ∀ j, ∀ hj : j < s.controls.length,
        (s.controls.get ⟨j, hj⟩).containsPoint px py = true →
        (∀ k, ∀ hk : k < s.controls.length, j < k →
          (s.controls.get ⟨k, hk⟩).containsPoint px py = false) →
        (s.onMouseClick px py).1 = { s with focusIndex := (j : Int) }
        ∧ (s.onMouseClick px py).2 = (if (s.controls.get ⟨j, hj⟩).hasClick
            then ClickRoute.toControl (s.controls.get ⟨j, hj⟩).cid
            else ClickRoute.focusOnly (s.controls.get ⟨j, hj⟩).cid))
    ∧ (s.modals = [] →
        (∀ k, ∀ hk : k < s.controls.length,
          (s.controls.get ⟨k, hk⟩).containsPoint px py = false) →
        s.onMouseClick px py = (s, ClickRoute.noHit)) := by
  refine ⟨?_, ?_, ?_⟩
  · intro m hm
    rw [MarkJSCanvasUI.onMouseClick, hm]
  · intro hmod j hj hc habove
    have hlast : s.modals.getLast? = none := by rw [hmod]; rfl
    have hfind := findTopHit_spec px py s.controls j hj hc habove
    rw [MarkJSCanvasUI.onMouseClick, hlast, hfind]
    exact ⟨rfl, rfl⟩
  · intro hmod hnone
    have hlast : s.modals.getLast? = none := by rw [hmod]; rfl
    have hfind := findTopHit_none px py s.controls hnone
    rw [MarkJSCanvasUI.onMouseClick, hlast, hfind]

/-- Two overlapping clickable non-Panel controls registered on a fresh
manager; control id 11 sits on top (later in sequence order). -/
def stateC4 : MarkJSCanvasUI :=
  { initState with
      controls := [⟨10, 0, 0, 100, 100, false, true⟩, ⟨11, 50, 50, 100, 100, false, true⟩],
      focusIndex := 0 }

/-- Witness for `C4_click_dispatch`: clicking at (75, 75), inside both
controls, focuses index 1 (the topmost) and delivers the click to control 11
only. -/
theorem C4_click_dispatch_witness :
    (stateC4.onMouseClick 75 75).1 = { stateC4 with focusIndex := (1 : Int) }
    ∧ (stateC4.onMouseClick 75 75).2 = ClickRoute.toControl 11 := by
  have h := (C4_click_dispatch stateC4 75 75).2.1 rfl 1 (by norm_num [stateC4])
    (by norm_num [stateC4, initState, Ctrl.containsPoint])
    (fun k hk hgt => by
      exfalso
      norm_num [stateC4, initState] at hk
      omega)
  refine ⟨h.1, ?_⟩
  rw [h.2]
  rfl

theorem jsMod_eq_emod (a b : Int) (ha : 0 ≤ a) (hb : 0 < b) : jsMod a b = a % b := by
  rw [jsMod, if_neg (by omega : ¬ b = 0), Int.emod_def,
    Int.tdiv_eq_ediv ha (le_of_lt hb)]

theorem emod_add_self_right (a b : Int) : (a + b) % b = a % b := by
  have := Int.add_mul_emod_self_left a b 1
  simpa using this

theorem emod_sub_emod_left (a b n : Int) : (a % n - b) % n = (a - b) % n := by
  have := Int.emod_add_emod a n (-b)
  simpa [sub_eq_add_neg] using this

theorem focusNext_iterate (s : MarkJSCanvasUI) (hf : 0 ≤ s.focusIndex)
    (hlt : s.focusIndex < (s.controls.length : Int)) (k : Nat) :
    MarkJSCanvasUI.focusNext^[k] s
      = { s with focusIndex := (s.focusIndex + (k : Int)) % (s.controls.length : Int) } := by
  have hpos : (0 : Int) < (s.controls.length : Int) := lt_of_le_of_lt hf hlt
  induction k with
  | zero =>
    have h0 : (s.focusIndex + ((0 : Nat) : Int)) % (s.controls.length : Int)
        = s.focusIndex := by
      simp only [Nat.cast_zero, add_zero]
      exact Int.emod_eq_of_lt hf hlt
    rw [Function.iterate_zero, id_eq, h0]
  | succ k ih =>
    rw [Function.iterate_succ_apply', ih, MarkJSCanvasUI.focusNext]
    dsimp only
    rw [if_neg (by omega : ¬ s.controls.length = 0)]
    have hnn : 0 ≤ (s.focusIndex + (k : Int)) % (s.controls.length : Int) :=
      Int.emod_nonneg _ (by omega)
    rw [jsMod_eq_emod _ _ (by omega) hpos]
    have harg : ((s.focusIndex + (k : Int)) % (s.controls.length : Int) + 1)
          % (s.controls.length : Int)
        = (s.focusIndex + ((k + 1 : Nat) : Int)) % (s.controls.length : Int) := by
      rw [Int.emod_add_emod]
      congr 1
      push_cast
      ring
    rw [harg]

theorem focusPrevious_iterate (s : MarkJSCanvasUI) (hf : 0 ≤ s.focusIndex)
    (hlt : s.focusIndex < (s.controls.length : Int)) (k : Nat) :
    MarkJSCanvasUI.focusPrevious^[k] s
      = { s with focusIndex := (s.focusIndex - (k : Int)) % (s.controls.length : Int) } := by
  have hpos : (0 : Int) < (s.controls.length : Int) := lt_of_le_of_lt hf hlt
  induction k with
  | zero =>
    have h0 : (s.focusIndex - ((0 : Nat) : Int)) % (s.controls.length : Int)
        = s.focusIndex := by
      simp only [Nat.cast_zero, sub_zero]
      exact Int.emod_eq_of_lt hf hlt
    rw [Function.iterate_zero, id_eq, h0]
  | succ k ih =>
    rw [Function.iterate_succ_apply', ih, MarkJSCanvasUI.focusPrevious]
    dsimp only
    rw [if_neg (by omega : ¬ s.controls.length = 0)]
    have hnn : 0 ≤ (s.focusIndex - (k : Int)) % (s.controls.length : Int) :=
      Int.emod_nonneg _ (by omega)
    rw [jsMod_eq_emod _ _ (by omega) hpos]
    have harg : ((s.focusIndex - (k : Int)) % (s.controls.length : Int) - 1
          + (s.controls.length : Int)) % (s.controls.length : Int)
        = (s.focusIndex - ((k + 1 : Nat) : Int)) % (s.controls.length : Int) := by
      rw [emod_add_self_right, emod_sub_emod_left]
      congr 1
      push_cast
      ring
    rw [harg]

/-- C6: on a manager with a non-empty control sequence of length N and a valid
focus index, N applications of `focusNext` (or of `focusPrevious`) return the
whole state — in particular the focus index — to its initial value; on an
empty sequence both operations leave the entire manager state unchanged. -/
theorem C6_focus_wraparound :
    (∀ s : MarkJSCanvasUI, 0 ≤ s.focusIndex → s.focusIndex < (s.controls.length : Int) →
      MarkJSCanvasUI.focusNext^[s.controls.length] s = s
      ∧ MarkJSCanvasUI.focusPrevious^[s.controls.length] s = s)
    ∧ (∀ s : MarkJSCanvasUI, s.controls = [] → s.focusNext = s ∧ s.focusPrevious = s) := by
  constructor
  · intro s hf hlt
    constructor
    · rw [focusNext_iterate s hf hlt s.controls.length]
      have h1 : (s.focusIndex + (s.controls.length : Int)) % (s.controls.length : Int)
          = s.focusIndex := by
        rw [emod_add_self_right]
        exact Int.emod_eq_of_lt hf hlt
      rw [h1]
    · rw [focusPrevious_iterate s hf hlt s.controls.length]
      have h1 : (s.focusIndex - (s.controls.length : Int)) % (s.controls.length : Int)
          = s.focusIndex := by
        rw [sub_eq_add_neg, show -(s.controls.length : Int)
          = (s.controls.length : Int) * (-1) by ring, Int.add_mul_emod_self_left]
        exact Int.emod_eq_of_lt hf hlt
      rw [h1]
  · intro s h
    have h0 : s.controls.length = 0 := by rw [h]; rfl
    exact ⟨by rw [MarkJSCanvasUI.focusNext, if_pos h0],
      by rw [MarkJSCanvasUI.focusPrevious, if_pos h0]⟩

/-- A fresh manager holding two non-Panel controls with focus on index 0. -/
def stateC6 : MarkJSCanvasUI :=
  { initState with
      controls := [⟨20, 0, 0, 100, 50, false, true⟩, ⟨21, 0, 60, 100, 50, false, true⟩],
      focusIndex := 0 }

/-- Witness for `C6_focus_wraparound`: two `focusNext` (and two
`focusPrevious`) calls on a two-control manager restore the state. -/
theorem C6_focus_wraparound_witness :
    MarkJSCanvasUI.focusNext^[stateC6.controls.length] stateC6 = stateC6
    ∧ MarkJSCanvasUI.focusPrevious^[stateC6.controls.length] stateC6 = stateC6 :=
  C6_focus_wraparound.1 stateC6 (by norm_num [stateC6]) (by norm_num [stateC6, initState])

theorem indexOfCid_lt (cs : List Ctrl) (cid i : Nat) (h : indexOfCid cs cid = some i) :
    i < cs.length := by
  induction cs generalizing i with
  | nil => simp [indexOfCid] at h
  | cons c rest ih =>
    rw [indexOfCid] at h
    by_cases hc : c.cid = cid
    · rw [if_pos hc] at h
      simp only [Option.some.injEq] at h
      simp only [List.length_cons]
      omega
    · rw [if_neg hc] at h
      cases hr : indexOfCid rest cid with
      | none => rw [hr] at h; simp at h
      | some j =>
        rw [hr] at h
        simp only [Option.map_some', Option.some.injEq] at h
        have := ih j hr
        simp only [List.length_cons]
        omega

/-- The focus invariant: the focus index is in `[-1, len - 1]` and is `-1`
exactly when the control sequence is empty. -/
def FocusInv (s : MarkJSCanvasUI) : Prop :=
  -1 ≤ s.focusIndex ∧ s.focusIndex < (s.controls.length : Int)
  ∧ (s.focusIndex = -1 ↔ s.controls.length = 0)

theorem FocusInv_addControl (s : MarkJSCanvasUI) (c : Ctrl) (h : FocusInv s) :
    FocusInv (s.addControl c) := by
  obtain ⟨h1, h2, h3⟩ := h
  rw [MarkJSCanvasUI.addControl]
  have hlen : (s.controls ++ [c]).length = s.controls.length + 1 := by simp
  by_cases hcond : s.focusIndex = -1 ∧ (s.controls ++ [c]).length = 1
  · rw [if_pos hcond]
    refine ⟨by norm_num, ?_, ?_⟩
    · dsimp only; rw [hlen]; omega
    · dsimp only; rw [hlen]; constructor
      · intro he; exact absurd he (by norm_num)
      · intro he; omega
  · rw [if_neg hcond]
    rw [hlen] at hcond
    refine ⟨h1, ?_, ?_⟩
    · dsimp only; rw [hlen]; omega
    · dsimp only; rw [hlen]
      constructor
      · intro he
        exact absurd ⟨he, by omega⟩ hcond
      · intro he; omega

theorem FocusInv_removeControl (s : MarkJSCanvasUI) (cid : Nat) (h : FocusInv s) :
    FocusInv (s.removeControl cid) := by
  obtain ⟨h1, h2, h3⟩ := h
  rw [MarkJSCanvasUI.removeControl]
  cases hidx : indexOfCid s.controls cid with
  | none => exact ⟨h1, h2, h3⟩
  | some i =>
    have hi := indexOfCid_lt s.controls cid i hidx
    have hlen : (s.controls.eraseIdx i).length = s.controls.length - 1 := by
      rw [List.length_eraseIdx, if_pos hi]
    dsimp only
    by_cases hcl : s.focusIndex ≥ ((s.controls.eraseIdx i).length : Int)
    · rw [if_pos hcl]
      rw [hlen] at hcl
      refine ⟨?_, ?_, ?_⟩ <;> dsimp only <;> rw [hlen] <;> omega
    · rw [if_neg hcl]
      rw [hlen] at hcl
      refine ⟨h1, ?_, ?_⟩ <;> dsimp only <;> rw [hlen] <;> omega

theorem FocusInv_focusNext (s : MarkJSCanvasUI) (h : FocusInv s) :
    FocusInv s.focusNext := by
  obtain ⟨h1, h2, h3⟩ := h
  rw [MarkJSCanvasUI.focusNext]
  by_cases h0 : s.controls.length = 0
  · rw [if_pos h0]; exact ⟨h1, h2, h3⟩
  · rw [if_neg h0]
    have hf0 : 0 ≤ s.focusIndex := by omega
    have hpos : (0 : Int) < (s.controls.length : Int) := by omega
    rw [jsMod_eq_emod _ _ (by omega) hpos]
    have hnn : 0 ≤ (s.focusIndex + 1) % (s.controls.length : Int) :=
      Int.emod_nonneg _ (by omega)
    have hup : (s.focusIndex + 1) % (s.controls.length : Int) < (s.controls.length : Int) :=
      Int.emod_lt_of_pos _ hpos
    generalize hx : (s.focusIndex + 1) % (s.controls.length : Int) = x at hnn hup ⊢
    refine ⟨?_, ?_, ?_⟩ <;> dsimp only
    · omega
    · exact hup
    · omega

theorem FocusInv_focusPrevious (s : MarkJSCanvasUI) (h : FocusInv s) :
    FocusInv s.focusPrevious := by
  obtain ⟨h1, h2, h3⟩ := h
  rw [MarkJSCanvasUI.focusPrevious]
  by_cases h0 : s.controls.length = 0
  · rw [if_pos h0]; exact ⟨h1, h2, h3⟩
  · rw [if_neg h0]
    have hf0 : 0 ≤ s.focusIndex := by omega
    have hpos : (0 : Int) < (s.controls.length : Int) := by omega
    dsimp only
    rw [jsMod_eq_emod _ _ (by omega) hpos]
    have hnn : 0 ≤ (s.focusIndex - 1 + (s.controls.length : Int))
        % (s.controls.length : Int) := Int.emod_nonneg _ (by omega)
    have hup : (s.focusIndex - 1 + (s.controls.length : Int)) % (s.controls.length : Int)
        < (s.controls.length : Int) := Int.emod_lt_of_pos _ hpos
    generalize hx : (s.focusIndex - 1 + (s.controls.length : Int))
        % (s.controls.length : Int) = x at hnn hup ⊢
    refine ⟨?_, ?_, ?_⟩ <;> dsimp only
    · omega
    · exact hup
    · omega

theorem FocusInv_onMouseClick (s : MarkJSCanvasUI) (px py : ℚ) (h : FocusInv s) :
    FocusInv (s.onMouseClick px py).1 := by
  obtain ⟨h1, h2, h3⟩ := h
  rw [MarkJSCanvasUI.onMouseClick]
  cases hml : s.modals.getLast? with
  | some m => exact ⟨h1, h2, h3⟩
  | none =>
    cases hft : findTopHit px py s.controls with
    | none => exact ⟨h1, h2, h3⟩
    | some ic =>
      obtain ⟨i, c⟩ := ic
      have hi := findTopHit_lt px py s.controls i c hft
      refine ⟨?_, ?_, ?_⟩ <;> dsimp only <;> omega

theorem FocusInv_applyOp (s : MarkJSCanvasUI) (op : MOp) (h : FocusInv s) :
    FocusInv (applyOp s op) := by
  cases op with
  | add c => exact FocusInv_addControl s c h
  | remove cid => exact FocusInv_removeControl s cid h
  | removeAll => exact ⟨by norm_num [applyOp, MarkJSCanvasUI.removeAllControls],
      by norm_num [applyOp, MarkJSCanvasUI.removeAllControls],
      by norm_num [applyOp, MarkJSCanvasUI.removeAllControls]⟩
  | removeAllExceptToasts =>
    exact ⟨by norm_num [applyOp, MarkJSCanvasUI.removeAllControlsExceptToasts],
      by norm_num [applyOp, MarkJSCanvasUI.removeAllControlsExceptToasts],
      by norm_num [applyOp, MarkJSCanvasUI.removeAllControlsExceptToasts]⟩
  | next => exact FocusInv_focusNext s h
  | prev => exact FocusInv_focusPrevious s h
  | click px py => exact FocusInv_onMouseClick s px py h

theorem FocusInv_foldl (ops : List MOp) (s : MarkJSCanvasUI) (h : FocusInv s) :
    FocusInv (ops.foldl applyOp s) := by
  induction ops generalizing s with
  | nil => exact h
  | cons op rest ih => exact ih (applyOp s op) (FocusInv_applyOp s op h)

/-- C5: after any sequence of manager operations (addControl, removeControl,
removeAllControls and its ExceptToasts variant, focusNext, focusPrevious,
click dispatch) starting from the constructor state, the focus index lies in
`[-1, controls.length - 1]` and equals `-1` exactly when the control sequence
is empty — which covers in particular adding N controls and then removing one
by identity. -/
theorem C5_focus_invariant (ops : List MOp) :
    -1 ≤ (ops.foldl applyOp initState).focusIndex
    ∧ (ops.foldl applyOp initState).focusIndex
        ≤ ((ops.foldl applyOp initState).controls.length : Int) - 1
    ∧ ((ops.foldl applyOp initState).focusIndex = -1
        ↔ (ops.foldl applyOp initState).controls = []) := by
  have hinit : FocusInv initState := ⟨by norm_num [initState], by norm_num [initState],
    by norm_num [initState]⟩
  obtain ⟨h1, h2, h3⟩ := FocusInv_foldl ops initState hinit
  refine ⟨h1, by omega, ?_⟩
  rw [h3, List.length_eq_zero]

end MarkUI
